import Mathlib

/-!
Verification development for the `siteware` static-site generator
(`siteware.go`).  The Go program is shallowly embedded: pure path
arithmetic (`path/filepath` on Unix, `strings.TrimPrefix`) is translated
to executable Lean functions on strings, and each effectful phase of the
build (output reconciliation, per-directory configuration caching, the
walk callback dispatch, the thumbnail walk callback, the `readdir`
template host function) is translated to a function over an explicit
environment/state describing what the file system returns at each step.
-/

namespace Siteware

/-! ## Constants of the program (siteware.go lines 45-53) -/

def StaticDirName : String := "static"

def SourceDirName : String := "src"

def TemplateDirName : String := "templates"

def DirConfigFileName : String := "siteware.json"

def DefaultTemplateName : String := "default.template"

def ThumbDirName : String := ".thumbs"

/-! ## Path arithmetic

Models of the Go standard-library path functions used by the program,
for Unix (`/` separator, no volume names).  Paths are ASCII strings, so
char-level and byte-level operations agree. -/

/-- `strStarts pre s`: `pre` is a prefix of the char list `s`
(models Go `strings.HasPrefix` on ASCII strings). -/
def strStarts : List Char → List Char → Bool
  | [], _ => true
  | _ :: _, [] => false
  | a :: as, b :: bs => a = b && strStarts as bs

/-- Split a char list on `/` into path components. -/
def splitOnSlash : List Char → List Char → List String
  | [], cur => [String.mk cur.reverse]
  | c :: rest, cur =>
    if c = '/' then String.mk cur.reverse :: splitOnSlash rest []
    else splitOnSlash rest (c :: cur)

/-- Join components with `/`. -/
def joinSlash : List String → String
  | [] => ""
  | [x] => x
  | x :: xs => x ++ "/" ++ joinSlash xs

/-- One step of Go `path.Clean`'s element processing: `out` is the
(reversed) stack of kept components, `c` the next component. -/
def cleanStep (rooted : Bool) (out : List String) (c : String) : List String :=
  if c = "" ∨ c = "." then out
  else if c = ".." then
    match out with
    | [] => if rooted then [] else [".."]
    | top :: rest => if top = ".." then ".." :: top :: rest else rest
  else c :: out

/-- Go `filepath.Clean` on Unix: shortest lexically equivalent path. -/
def pathClean (p : String) : String :=
  if p = "" then "."
  else
    let rooted := strStarts [ '/' ] p.data
    let comps := splitOnSlash p.data []
    let stack := comps.foldl (cleanStep rooted) []
    let body := joinSlash stack.reverse
    if rooted then (if body = "" then "/" else "/" ++ body)
    else (if body = "" then "." else body)

/-- Go `filepath.Join`: skip leading empty elements, join the rest with
`/`, then `Clean`; all-empty input yields `""`. -/
def goJoin (elems : List String) : String :=
  let rest := elems.dropWhile (fun e => e = "")
  if rest.isEmpty then "" else pathClean (joinSlash rest)

/-- Go `strings.TrimPrefix s pre`: drop `pre` from the front of `s` when
it is a prefix, otherwise return `s` unchanged. -/
def goTrim (s pre : String) : String :=
  if strStarts pre.data s.data then String.mk (s.data.drop pre.data.length) else s

/-- Helper for `goExt`: scan the reversed char list for the last `.`
before any `/`. -/
def goExtAux (acc : List Char) : List Char → String
  | [] => ""
  | c :: cs =>
    if c = '/' then ""
    else if c = '.' then String.mk ('.' :: acc)
    else goExtAux (c :: acc) cs

/-- Go `filepath.Ext`: the suffix from the final dot in the final path
element, empty if there is none. -/
def goExt (p : String) : String := goExtAux [] p.data.reverse

/-- Go `filepath.Dir`: everything up to and including the final slash,
cleaned (`.` for slashless paths). -/
def goDir (p : String) : String :=
  pathClean (String.mk ((p.data.reverse.dropWhile (fun c => c ≠ '/')).reverse))

/-! ## Data model (siteware.go lines 22-41)

`Data interface{}` decoded from JSON is modelled by `GoValue` (`none`
standing for Go `nil`); Go maps are modelled as association lists. -/

/-- A decoded JSON value, the shape of the opaque `Data` payload. -/
inductive GoValue
  | null
  | bool (b : Bool)
  | num (n : Int)
  | str (s : String)
  | arr (xs : List GoValue)
  | obj (fields : List (String × GoValue))

/-- `thumbnailConfig` (lines 26-30). -/
structure ThumbnailConfigG where
  Method : String
  Width : Int
  Height : Int

/-- `fileConfig` (lines 34-38). -/
structure FileConfigG where
  Template : String
  Data : Option GoValue
  AutoThumbnail : List (String × ThumbnailConfigG)

/-- `dirConfig = map[string]fileConfig` (line 32), as an association
list keyed by file name. -/
abbrev DirConfigG : Type := List (String × FileConfigG)

/-- Go map lookup on an association list. -/
def lookupA {α : Type} : List (String × α) → String → Option α
  | [], _ => none
  | (k, v) :: rest, key => if k = key then some v else lookupA rest key

/-- `DefaultDirConfig` (line 41): the shared empty default. -/
def DefaultDirConfig : DirConfigG := []

/-! ## Walk-callback dispatch (generateHTML, lines 253-294) -/

/-- The `os.FileMode` classification the callback branches on:
`IsDir`, `IsRegular`, or neither (symlink, device, pipe, ...). -/
inductive FileMode
  | dir
  | regular
  | other
deriving DecidableEq

/-- The `os.FileInfo` data the callback consults. -/
structure WalkInfo where
  name : String
  mode : FileMode

/-- The action the callback takes for one visited entry. -/
inductive Action
  | mkdirAll (dest : String)
  | render (tmpl : String) (data : Option GoValue) (dest : String)
  | skip

/-- Lines 253-266: select template and data for a file name from the
directory's config; absent key or blank template fall back to
`DefaultTemplateName`. -/
def resolveFileCfg (cfg : DirConfigG) (name : String) : String × Option GoValue :=
  match lookupA cfg name with
  | none => (DefaultTemplateName, none)
  | some fc => (if fc.Template = "" then DefaultTemplateName else fc.Template, fc.Data)

/-- Lines 253-294: the per-entry dispatch of the walk callback.  The
render condition keeps Go's operator precedence:
`info.Mode().IsRegular() && ext == ".html" || ext == ".htm"` parses as
`(IsRegular && ext == ".html") || ext == ".htm"`. -/
def processEntry (cfg : DirConfigG) (path destPath : String) (info : WalkInfo) : Action :=
  let r := resolveFileCfg cfg info.name
  let ext := goExt path
  if info.mode = FileMode.dir then Action.mkdirAll destPath
  else if (info.mode = FileMode.regular ∧ ext = ".html") ∨ ext = ".htm" then
    Action.render r.1 r.2 destPath
  else Action.skip

/-! ## Thumbnail walk callback (generateHTML, lines 229-248) -/

/-- What the inner thumbnail walk does with one visited path. -/
inductive ThumbAction
  | skip
  | makeThumb (src dest : String)
deriving DecidableEq

/-- Lines 235-245: the callback of the inner `filepath.Walk` over a
configured `autoThumbnail` subpath.  `imgName` is `imgInfo.Name()`. -/
def thumbWalkFn (inputPath outputPath imgPath imgName : String) : ThumbAction :=
  let ext := goExt imgPath
  if ext ≠ ".png" ∧ ext ≠ ".jpg" ∧ ext ≠ ".jpeg" then ThumbAction.skip
  else
    let relImgPath := goTrim imgPath (goJoin [inputPath, SourceDirName])
    let destImgPath := goJoin [outputPath, goDir relImgPath, ThumbDirName, imgName]
    ThumbAction.makeThumb imgPath destImgPath

/-- Line 232: the directory the program creates (`MkdirAll`) before the
thumbnail walk of one configured `autoThumbnail` subpath. -/
def thumbMkdirPath (outputPath imgDirPath : String) : String :=
  goJoin [outputPath, StaticDirName, imgDirPath, ThumbDirName]

/-- ASCII lowercase of one character (models Go `strings.ToLower` on
ASCII input, character by character). -/
def charLower (c : Char) : Char :=
  if 'A' ≤ c ∧ c ≤ 'Z' then Char.ofNat (c.toNat + 32) else c

/-- ASCII lowercase of a string. -/
def strLower (s : String) : String := String.mk (s.data.map charLower)

/-- The spec's extension predicate, stated in the spec's own words:
image extensions `.png`, `.jpg`, `.jpeg` matched case-insensitively.
Used only to compare the spec's claim against the code's filter. -/
def thumbExtAllowedSpec (p : String) : Bool :=
  let e := strLower (goExt p)
  e = ".png" || e = ".jpg" || e = ".jpeg"

/-! ## Output reconciliation (build, lines 147-173) -/

/-- A file-system subtree, used to express that protected children of
the output root survive reconciliation whole. -/
inductive FSNode
  | file (content : String)
  | dir (children : List (String × FSNode))

/-- One immediate child of the output root, as returned by
`repo.Readdir(0)`: its name, whether it is a directory, and its
subtree. -/
structure RootEntry where
  name : String
  isDir : Bool
  node : FSNode

/-- Line 162: the allow-list check of the clearing loop. -/
def protectedName (n : String) : Bool :=
  n = ".git" || n = StaticDirName || n = ".gitignore" || n = "CNAME"

/-- A file-system mutation the build performs. -/
inductive Mutation
  | removeAll (path : String)
  | remove (path : String)
  | syncStatic (src dest : String)

/-- Lines 165-169: the removal operation chosen for one non-protected
child (`os.RemoveAll` for directories, `os.Remove` for files). -/
def removalOp (outputRoot : String) (e : RootEntry) : Mutation :=
  if e.isDir then Mutation.removeAll (goJoin [outputRoot, e.name])
  else Mutation.remove (goJoin [outputRoot, e.name])

/-- Result of the clearing loop: the children still present afterwards
and the removal operations that were attempted, in order. -/
structure ClearResult where
  remaining : List RootEntry
  ops : List Mutation

/-- Lines 161-170: the clearing loop over the output root's children.
`remOk` says whether the OS reports success for a removal; the loop
discards the error result, so `remOk` only determines whether the child
is still present afterwards, never the control flow. -/
def clearOutput (outputRoot : String) (remOk : Mutation → Bool) :
    List RootEntry → ClearResult
  | [] => ⟨[], []⟩
  | e :: es =>
    let r := clearOutput outputRoot remOk es
    if protectedName e.name then ⟨e :: r.remaining, r.ops⟩
    else
      let op := removalOp outputRoot e
      ⟨if remOk op then r.remaining else e :: r.remaining, op :: r.ops⟩

/-! ## The build sequence (build, lines 125-186) -/

/-- The master configuration `config` (lines 22-24). -/
structure GoConfig where
  Output : String

/-- Where the build run ends: a fatal log call (with the failing step's
message), or reaching the HTML-generation phase. -/
inductive BuildOutcome
  | fatal (msg : String)
  | generating

/-- What the environment (file system) answers at each step of
`build()`, in program order. -/
structure BuildEnv where
  inputPath : String
  cfgOpenOk : Bool
  cfgParse : Option GoConfig
  cfgCloseOk : Bool
  absOk : Bool
  outputEntries : Option (List RootEntry)
  readdirOk : Bool
  remOk : Mutation → Bool
  outCloseOk : Bool
  syncOk : Bool

/-- The observable trace of one `build()` run up to HTML generation:
the mutations attempted, the output root's children after the clearing
loop (`none` when the loop was never reached), and the outcome. -/
structure BuildTrace where
  mutations : List Mutation
  outputAfterClear : Option (List RootEntry)
  outcome : BuildOutcome

/-- `build()` (lines 125-186): load and decode the master config, close
it, resolve the input path, reject an empty output path, open and list
the output root, clear non-protected children (removal errors
discarded), close the root, sync statics, then generate HTML. -/
def build (env : BuildEnv) : BuildTrace :=
  if !env.cfgOpenOk then ⟨[], none, BuildOutcome.fatal "Error opening config file"⟩
  else
    match env.cfgParse with
    | none => ⟨[], none, BuildOutcome.fatal "Error decoding config file"⟩
    | some cfg =>
      if !env.cfgCloseOk then ⟨[], none, BuildOutcome.fatal "Error closing config file"⟩
      else if !env.absOk then ⟨[], none, BuildOutcome.fatal "Error resolving input path"⟩
      else if cfg.Output = "" then
        ⟨[], none, BuildOutcome.fatal "Output directory unset in configuration"⟩
      else
        match env.outputEntries with
        | none => ⟨[], none, BuildOutcome.fatal "cannot open output path"⟩
        | some entries =>
          if !env.readdirOk then ⟨[], none, BuildOutcome.fatal "panic: Readdir"⟩
          else
            let r := clearOutput cfg.Output env.remOk entries
            if !env.outCloseOk then
              ⟨r.ops, some r.remaining, BuildOutcome.fatal "Error closing destination"⟩
            else
              let syncMut := Mutation.syncStatic (goJoin [env.inputPath, StaticDirName])
                (goJoin [cfg.Output, StaticDirName])
              if !env.syncOk then
                ⟨r.ops ++ [syncMut], some r.remaining, BuildOutcome.fatal "Error syncing static files"⟩
              else ⟨r.ops ++ [syncMut], some r.remaining, BuildOutcome.generating⟩

/-- Replace the removal-success oracle of an environment. -/
def setRemOk (env : BuildEnv) (f : Mutation → Bool) : BuildEnv :=
  ⟨env.inputPath, env.cfgOpenOk, env.cfgParse, env.cfgCloseOk, env.absOk,
   env.outputEntries, env.readdirOk, f, env.outCloseOk, env.syncOk⟩

/-! ## Per-directory configuration resolution (generateHTML, lines 204-224) -/

/-- The possible states of a directory's `siteware.json` as the program
observes them: the file does not exist, `os.Open` fails for another
reason, or it opens and then either parses (`some`) or not (`none`),
with `closeErr` saying whether `Close()` fails afterwards. -/
inductive DirCfgFile
  | notExist
  | openErr
  | opened (parsed : Option DirConfigG) (closeErr : Bool)

/-- Lines 204-224 without the caching: resolve one directory's config.
A missing file yields the shared default; an open error, a decode
error, or a close error is returned to the walk (which aborts the
build). -/
def resolveDirConfig : DirCfgFile → Except Unit DirConfigG
  | DirCfgFile.notExist => Except.ok DefaultDirConfig
  | DirCfgFile.openErr => Except.error ()
  | DirCfgFile.opened none _ => Except.error ()
  | DirCfgFile.opened (some c) closeErr =>
    if closeErr then Except.error () else Except.ok c

/-- The configuration file exists on disk. -/
def dirCfgFileExists : DirCfgFile → Bool
  | DirCfgFile.notExist => false
  | _ => true

/-- `os.Open` fails with an error other than not-exist. -/
def dirCfgOpenFails : DirCfgFile → Bool
  | DirCfgFile.openErr => true
  | _ => false

/-- The file opens but does not decode as valid JSON. -/
def dirCfgParseFails : DirCfgFile → Bool
  | DirCfgFile.opened none _ => true
  | _ => false

/-- `Close()` reports an error after the file was opened. -/
def dirCfgCloseFails : DirCfgFile → Bool
  | DirCfgFile.opened _ b => b
  | _ => false

/-- Whether an `Except` result is a success. -/
def exceptIsOk : Except Unit DirConfigG → Bool
  | Except.ok _ => true
  | Except.error _ => false

/-! ## Directory-configuration caching (generateHTML, lines 189-252) -/

/-- The mutable state of one `generateHTML` run: the `configs` map and
the (ghost) list of directories whose config file was read from disk,
in order of the `os.Open` attempts. -/
structure WalkState where
  cache : List (String × DirConfigG)
  reads : List String

/-- The file system as the walk sees it: each directory's config-file
state, and whether the thumbnail pass triggered by that directory's
config succeeds (abstracting lines 226-250). -/
structure DiskModel where
  cfgFile : String → DirCfgFile
  thumbOk : String → Bool

/-- Lines 200-252: config resolution for the directory of one visited
entry.  A cache hit touches nothing; otherwise the file is read (one
`reads` event), the result cached (before the `Close` check, as at line
221), and any open/decode/close/thumbnail error aborts the walk
(`false`). -/
def visitDir (disk : DiskModel) (s : WalkState) (dir : String) : WalkState × Bool :=
  match lookupA s.cache dir with
  | some _ => (s, true)
  | none =>
    match disk.cfgFile dir with
    | DirCfgFile.notExist =>
      (⟨(dir, DefaultDirConfig) :: s.cache, s.reads ++ [dir]⟩, true)
    | DirCfgFile.openErr => (⟨s.cache, s.reads ++ [dir]⟩, false)
    | DirCfgFile.opened none _ => (⟨s.cache, s.reads ++ [dir]⟩, false)
    | DirCfgFile.opened (some c) closeErr =>
      if closeErr then (⟨(dir, c) :: s.cache, s.reads ++ [dir]⟩, false)
      else
        match lookupA c StaticDirName with
        | none => (⟨(dir, c) :: s.cache, s.reads ++ [dir]⟩, true)
        | some _ =>
          if disk.thumbOk dir then (⟨(dir, c) :: s.cache, s.reads ++ [dir]⟩, true)
          else (⟨(dir, c) :: s.cache, s.reads ++ [dir]⟩, false)

/-- The config-resolution steps of one walk, over the sequence of
containing directories of the visited entries; an error stops the walk
(the build aborts). -/
def runVisits (disk : DiskModel) (s : WalkState) : List String → WalkState × Bool
  | [] => (s, true)
  | d :: ds =>
    match visitDir disk s d with
    | (s', true) => runVisits disk s' ds
    | (s', false) => (s', false)

/-- Number of occurrences of a string in a list. -/
def countStr (d : String) : List String → Nat
  | [] => 0
  | x :: xs => (if x = d then 1 else 0) + countStr d xs

/-! ## The readdir template host function (lines 330-347) -/

/-- An `os.FileInfo` as exposed to templates by `readdir`. -/
structure GoFileInfo where
  name : String
  size : Int
  isDir : Bool
deriving DecidableEq

/-- What the environment answers during one `readdir` call:
`filepath.Abs` (`none` = error), `os.Open` success, whether
`Readdir(0)` reports an error, and the entries it returns (possibly a
partial listing when it errors). -/
structure ReaddirEnv where
  absResult : Option String
  openOk : Bool
  readdirErr : Bool
  entries : List GoFileInfo

/-- Lines 330-347: `readdir`.  Every failure path takes the naked
`return`, so the function yields the zero-value empty slice on abs or
open errors, and whatever `Readdir` produced — error or not — in the
last step. -/
def readdirFn (env : ReaddirEnv) : List GoFileInfo :=
  match env.absResult with
  | none => []
  | some _ =>
    if !env.openOk then []
    else env.entries

/-! ## Auxiliary predicates and concrete instances used by theorems -/

/-- Invariant of the walk state: every directory was read at most once,
and a directory that was read is present in the cache. -/
def ReadsInv (s : WalkState) : Prop :=
  ∀ d, countStr d s.reads ≤ 1 ∧
    (countStr d s.reads = 0 ∨ (lookupA s.cache d).isSome = true)

/-- A disk on which no directory has a configuration file. -/
def diskW : DiskModel := ⟨fun _ => DirCfgFile.notExist, fun _ => true⟩

/-- A walk state whose cache already holds directory `"d"`. -/
def stateW : WalkState := ⟨[("d", DefaultDirConfig)], []⟩

/-- A build environment whose master configuration decodes with an
empty `Output` and whose file system would answer every later step. -/
def envW7 : BuildEnv :=
  ⟨"/in", true, some ⟨""⟩, true, true, some [], true, fun _ => true, true, true⟩

/-! ## Theorems -/

/-- C1: for an HTML source file that is rendered, a config entry keyed
by the file's name selects that entry's template (the system default
when the entry's template is blank) and that entry's data; an absent
key selects the system default template with a nil payload. -/
theorem c1_template_selection (cfg : DirConfigG) (path dest : String) (info : WalkInfo)
    (hreg : info.mode = FileMode.regular)
    (hext : goExt path = ".html" ∨ goExt path = ".htm") :
    (∀ fc, lookupA cfg info.name = some fc →
        processEntry cfg path dest info =
          Action.render (if fc.Template = "" then DefaultTemplateName else fc.Template)
            fc.Data dest) ∧
    (lookupA cfg info.name = none →
        processEntry cfg path dest info = Action.render DefaultTemplateName none dest) := by
  constructor
  · intro fc hfc
    simp only [processEntry, resolveFileCfg, hfc, hreg]
    rcases hext with h | h <;> simp [h]
  · intro hfc
    simp only [processEntry, resolveFileCfg, hfc, hreg]
    rcases hext with h | h <;> simp [h]

/-- Witness for C1 at a concrete config, path and entry. -/
theorem c1_template_selection_witness :
    processEntry [("a.html", ⟨"", some (GoValue.str "x"), []⟩)] "/i/src/a.html" "/o/a.html"
        ⟨"a.html", FileMode.regular⟩ =
      Action.render DefaultTemplateName (some (GoValue.str "x")) "/o/a.html" :=
  (c1_template_selection [("a.html", ⟨"", some (GoValue.str "x"), []⟩)] "/i/src/a.html"
    "/o/a.html" ⟨"a.html", FileMode.regular⟩ rfl (Or.inl (by decide))).1
    ⟨"", some (GoValue.str "x"), []⟩ rfl

/-- C2 (code bug): a walked entry that is neither a directory nor a
regular file — e.g. a symbolic link — whose name ends in `.htm` is
nevertheless rendered, because Go parses the dispatch condition as
`(IsRegular && ext == ".html") || ext == ".htm"`. -/
theorem c2_nonregular_htm_rendered :
    processEntry DefaultDirConfig "/in/src/link.htm" "/out/link.htm"
        ⟨"link.htm", FileMode.other⟩ =
      Action.render DefaultTemplateName none "/out/link.htm" := rfl

/-- C3 counterexample: a file named `a.PNG` matches the spec's
case-insensitive extension predicate, yet the thumbnail walk skips it —
the code compares extensions case-sensitively. -/
theorem c3_case_insensitive_cex :
    thumbWalkFn "/in" "/out" "/in/static/g/a.PNG" "a.PNG" = ThumbAction.skip ∧
    thumbExtAllowedSpec "/in/static/g/a.PNG" = true := ⟨by decide, by decide⟩

/-- C3 (amended): the thumbnail walk skips a visited path iff its
extension is not exactly `.png`, `.jpg` or `.jpeg` — the match is
case-sensitive. -/
theorem c3_ext_filter_case_sensitive (inputPath outputPath p n : String) :
    thumbWalkFn inputPath outputPath p n = ThumbAction.skip ↔
      ¬ (goExt p = ".png" ∨ goExt p = ".jpg" ∨ goExt p = ".jpeg") := by
  unfold thumbWalkFn
  by_cases h1 : goExt p = ".png" <;> by_cases h2 : goExt p = ".jpg" <;>
    by_cases h3 : goExt p = ".jpeg" <;> simp [h1, h2, h3]

/-- C4 (code bug): at input root `/in` and output root `/out`, the
thumbnail of `/in/static/gallery/a.png` is written to
`/out/in/static/gallery/.thumbs/a.png` (the `TrimPrefix` of the *src*
directory never strips a path under *static*), while the `MkdirAll` in
the same function creates `/out/static/gallery/.thumbs` — the location
the claim describes — so the derivative does not land in it. -/
theorem c4_thumb_dest_mismatch :
    thumbWalkFn "/in" "/out" "/in/static/gallery/a.png" "a.png" =
      ThumbAction.makeThumb "/in/static/gallery/a.png"
        "/out/in/static/gallery/.thumbs/a.png" ∧
    thumbMkdirPath "/out" "gallery" = "/out/static/gallery/.thumbs" ∧
    goDir "/out/in/static/gallery/.thumbs/a.png" ≠ thumbMkdirPath "/out" "gallery" :=
  ⟨by decide, by decide, by decide⟩

/-- C8 counterexample: the claim's characterisation of resolution
failure ("fails iff the file exists but cannot be opened or does not
parse") is false — a config file that opens and parses but whose
`Close()` fails also aborts resolution. -/
theorem c8_close_error_cex :
    ¬ (∀ f : DirCfgFile,
        exceptIsOk (resolveDirConfig f) = false ↔
          (dirCfgFileExists f = true ∧
            (dirCfgOpenFails f = true ∨ dirCfgParseFails f = true))) := by
  intro h
  have h2 := (h (DirCfgFile.opened (some DefaultDirConfig) true)).mp rfl
  rcases h2 with ⟨-, h3 | h3⟩
  · exact absurd h3 (by decide)
  · exact absurd h3 (by decide)

/-- C8 (amended): per-directory configuration resolution fails iff the
file exists but cannot be opened, does not parse, or closing it fails;
a missing file resolves without error to the shared empty default. -/
theorem c8_resolution_amended (f : DirCfgFile) :
    (exceptIsOk (resolveDirConfig f) = false ↔
      (dirCfgFileExists f = true ∧
        (dirCfgOpenFails f = true ∨ dirCfgParseFails f = true ∨
          dirCfgCloseFails f = true))) ∧
    resolveDirConfig DirCfgFile.notExist = Except.ok DefaultDirConfig := by
  constructor
  · cases f with
    | notExist =>
      simp [resolveDirConfig, exceptIsOk, dirCfgFileExists]
    | openErr =>
      simp [resolveDirConfig, exceptIsOk, dirCfgFileExists, dirCfgOpenFails]
    | opened p b =>
      cases p with
      | none =>
        simp [resolveDirConfig, exceptIsOk, dirCfgFileExists, dirCfgOpenFails,
          dirCfgParseFails, dirCfgCloseFails]
      | some c =>
        cases b <;>
          simp [resolveDirConfig, exceptIsOk, dirCfgFileExists, dirCfgOpenFails,
            dirCfgParseFails, dirCfgCloseFails]
  · rfl

/-- C9: the `readdir` template host function never surfaces an error:
an absolute-path resolution failure or an open failure yields the empty
listing, and otherwise it yields whatever listing `Readdir` produced,
whether or not `Readdir` reported an error. -/
theorem c9_readdir_soft_fail (env : ReaddirEnv) :
    (env.absResult = none → readdirFn env = []) ∧
    (env.openOk = false → readdirFn env = []) ∧
    (∀ s, env.absResult = some s → env.openOk = true → readdirFn env = env.entries) := by
  refine ⟨?_, ?_, ?_⟩
  · intro h; simp [readdirFn, h]
  · intro h; unfold readdirFn; cases ha : env.absResult <;> simp [h]
  · intro s hs ho; simp [readdirFn, hs, ho]

/-- Witness for C9: concrete abs-failure, open-failure, and
readdir-error-with-partial-listing calls. -/
theorem c9_readdir_soft_fail_witness :
    readdirFn ⟨none, true, false, [⟨"x", 1, false⟩]⟩ = [] ∧
    readdirFn ⟨some "/p", false, false, [⟨"x", 1, false⟩]⟩ = [] ∧
    readdirFn ⟨some "/p", true, true, [⟨"x", 1, false⟩]⟩ = [⟨"x", 1, false⟩] :=
  ⟨(c9_readdir_soft_fail ⟨none, true, false, [⟨"x", 1, false⟩]⟩).1 rfl,
   (c9_readdir_soft_fail ⟨some "/p", false, false, [⟨"x", 1, false⟩]⟩).2.1 rfl,
   (c9_readdir_soft_fail ⟨some "/p", true, true, [⟨"x", 1, false⟩]⟩).2.2 "/p" rfl rfl⟩

/-- The removal operations attempted by the clearing loop are exactly
one per non-protected child, in order, regardless of which removals the
OS reports as failed. -/
theorem clearOutput_ops (outputRoot : String) (remOk : Mutation → Bool)
    (es : List RootEntry) :
    (clearOutput outputRoot remOk es).ops =
      (es.filter (fun e => !protectedName e.name)).map (removalOp outputRoot) := by
  induction es with
  | nil => rfl
  | cons e es ih =>
    by_cases h : protectedName e.name = true <;> simp [clearOutput, h, ih]

/-- When every removal succeeds, the children surviving the clearing
loop are exactly the protected ones, untouched. -/
theorem clearOutput_remaining (outputRoot : String) (es : List RootEntry) :
    (clearOutput outputRoot (fun _ => true) es).remaining =
      es.filter (fun e => protectedName e.name) := by
  induction es with
  | nil => rfl
  | cons e es ih =>
    by_cases h : protectedName e.name = true <;> simp [clearOutput, h, ih]

/-- C5: reconciliation leaves every immediate child of the output root
whose name is in the allow-list (`.git`, `static`, `.gitignore`,
`CNAME`) untouched — subtree included — and removes every other
immediate child, with `RemoveAll` for directories and `Remove` for
files; every removal path is `output/childName`, so nothing below a
protected child is ever examined. -/
theorem c5_reconcile_allowlist (outputRoot : String) (es : List RootEntry) :
    (clearOutput outputRoot (fun _ => true) es).remaining =
      es.filter (fun e => protectedName e.name) ∧
    (clearOutput outputRoot (fun _ => true) es).ops =
      (es.filter (fun e => !protectedName e.name)).map (removalOp outputRoot) :=
  ⟨clearOutput_remaining outputRoot es, clearOutput_ops outputRoot (fun _ => true) es⟩

theorem countStr_append (d : String) (l₁ l₂ : List String) :
    countStr d (l₁ ++ l₂) = countStr d l₁ + countStr d l₂ := by
  induction l₁ with
  | nil => simp [countStr]
  | cons x xs ih => simp [countStr, ih, Nat.add_assoc]

/-- A read of a fresh directory keeps every count at most one. -/
theorem counts_after_read (s : WalkState) (dir : String) (hs : ReadsInv s)
    (hl : lookupA s.cache dir = none) :
    ∀ d, countStr d (s.reads ++ [dir]) ≤ 1 := by
  have hcnt : countStr dir s.reads = 0 := by
    rcases (hs dir).2 with h0 | hsome
    · exact h0
    · rw [hl] at hsome; cases hsome
  intro d
  rw [countStr_append]
  by_cases hd : dir = d
  · subst hd; rw [hcnt]; simp [countStr]
  · have hz : countStr d [dir] = 0 := by simp [countStr, hd]
    rw [hz]
    simpa using (hs d).1

/-- Reading a fresh directory and inserting its config restores the
invariant. -/
theorem readsInv_insert (s : WalkState) (dir : String) (x : DirConfigG)
    (hs : ReadsInv s) (hl : lookupA s.cache dir = none) :
    ReadsInv ⟨(dir, x) :: s.cache, s.reads ++ [dir]⟩ := by
  intro d
  refine ⟨counts_after_read s dir hs hl d, ?_⟩
  by_cases hd : dir = d
  · subst hd
    right
    simp [lookupA]
  · rw [countStr_append]
    have hz : countStr d [dir] = 0 := by simp [countStr, hd]
    rw [hz]
    rcases (hs d).2 with h0 | hsome
    · left; simpa using h0
    · right; simpa [lookupA, hd] using hsome

/-- Case analysis of one `visitDir` step: counts stay at most one, and
when the step succeeds the invariant is preserved. -/
theorem visitDir_inv (disk : DiskModel) (s : WalkState) (dir : String)
    (hs : ReadsInv s) :
    (∀ d, countStr d (visitDir disk s dir).1.reads ≤ 1) ∧
    ((visitDir disk s dir).2 = true → ReadsInv (visitDir disk s dir).1) := by
  cases hl : lookupA s.cache dir with
  | some v =>
    have hv : visitDir disk s dir = (s, true) := by simp [visitDir, hl]
    rw [hv]
    exact ⟨fun d => (hs d).1, fun _ => hs⟩
  | none =>
    cases hf : disk.cfgFile dir with
    | notExist =>
      have hv : visitDir disk s dir =
          (⟨(dir, DefaultDirConfig) :: s.cache, s.reads ++ [dir]⟩, true) := by
        simp [visitDir, hl, hf]
      rw [hv]
      exact ⟨counts_after_read s dir hs hl, fun _ => readsInv_insert s dir _ hs hl⟩
    | openErr =>
      have hv : visitDir disk s dir = (⟨s.cache, s.reads ++ [dir]⟩, false) := by
        simp [visitDir, hl, hf]
      rw [hv]
      refine ⟨counts_after_read s dir hs hl, ?_⟩
      intro h; cases h
    | opened p b =>
      cases p with
      | none =>
        have hv : visitDir disk s dir = (⟨s.cache, s.reads ++ [dir]⟩, false) := by
          simp [visitDir, hl, hf]
        rw [hv]
        refine ⟨counts_after_read s dir hs hl, ?_⟩
        intro h; cases h
      | some c =>
        cases b with
        | true =>
          have hv : visitDir disk s dir =
              (⟨(dir, c) :: s.cache, s.reads ++ [dir]⟩, false) := by
            simp [visitDir, hl, hf]
          rw [hv]
          refine ⟨counts_after_read s dir hs hl, ?_⟩
          intro h; cases h
        | false =>
          cases ht : lookupA c StaticDirName with
          | none =>
            have hv : visitDir disk s dir =
                (⟨(dir, c) :: s.cache, s.reads ++ [dir]⟩, true) := by
              simp [visitDir, hl, hf, ht]
            rw [hv]
            exact ⟨counts_after_read s dir hs hl, fun _ => readsInv_insert s dir _ hs hl⟩
          | some tc =>
            cases hth : disk.thumbOk dir with
            | true =>
              have hv : visitDir disk s dir =
                  (⟨(dir, c) :: s.cache, s.reads ++ [dir]⟩, true) := by
                simp [visitDir, hl, hf, ht, hth]
              rw [hv]
              exact ⟨counts_after_read s dir hs hl, fun _ => readsInv_insert s dir _ hs hl⟩
            | false =>
              have hv : visitDir disk s dir =
                  (⟨(dir, c) :: s.cache, s.reads ++ [dir]⟩, false) := by
                simp [visitDir, hl, hf, ht, hth]
              rw [hv]
              refine ⟨counts_after_read s dir hs hl, ?_⟩
              intro h; cases h

/-- A single step never disturbs an existing cache binding. -/
theorem visitDir_cache_mono (disk : DiskModel) (s : WalkState) (dir d : String)
    (c : DirConfigG) (h : lookupA s.cache d = some c) :
    lookupA (visitDir disk s dir).1.cache d = some c := by
  cases hl : lookupA s.cache dir with
  | some v =>
    have hv : visitDir disk s dir = (s, true) := by simp [visitDir, hl]
    rw [hv]; exact h
  | none =>
    have hne : ¬ dir = d := by
      intro he; rw [he, h] at hl; cases hl
    cases hf : disk.cfgFile dir with
    | notExist =>
      have hv : visitDir disk s dir =
          (⟨(dir, DefaultDirConfig) :: s.cache, s.reads ++ [dir]⟩, true) := by
        simp [visitDir, hl, hf]
      rw [hv]
      simpa [lookupA, hne] using h
    | openErr =>
      have hv : visitDir disk s dir = (⟨s.cache, s.reads ++ [dir]⟩, false) := by
        simp [visitDir, hl, hf]
      rw [hv]; exact h
    | opened p b =>
      cases p with
      | none =>
        have hv : visitDir disk s dir = (⟨s.cache, s.reads ++ [dir]⟩, false) := by
          simp [visitDir, hl, hf]
        rw [hv]; exact h
      | some cc =>
        have hcons : lookupA ((dir, cc) :: s.cache) d = some c := by
          simpa [lookupA, hne] using h
        cases b with
        | true =>
          have hv : visitDir disk s dir =
              (⟨(dir, cc) :: s.cache, s.reads ++ [dir]⟩, false) := by
            simp [visitDir, hl, hf]
          rw [hv]; exact hcons
        | false =>
          cases ht : lookupA cc StaticDirName with
          | none =>
            have hv : visitDir disk s dir =
                (⟨(dir, cc) :: s.cache, s.reads ++ [dir]⟩, true) := by
              simp [visitDir, hl, hf, ht]
            rw [hv]; exact hcons
          | some tc =>
            cases hth : disk.thumbOk dir with
            | true =>
              have hv : visitDir disk s dir =
                  (⟨(dir, cc) :: s.cache, s.reads ++ [dir]⟩, true) := by
                simp [visitDir, hl, hf, ht, hth]
              rw [hv]; exact hcons
            | false =>
              have hv : visitDir disk s dir =
                  (⟨(dir, cc) :: s.cache, s.reads ++ [dir]⟩, false) := by
                simp [visitDir, hl, hf, ht, hth]
              rw [hv]; exact hcons

/-- A whole walk never disturbs an existing cache binding. -/
theorem runVisits_cache_mono (disk : DiskModel) :
    ∀ (vs : List String) (s : WalkState) (d : String) (c : DirConfigG),
      lookupA s.cache d = some c →
      lookupA (runVisits disk s vs).1.cache d = some c := by
  intro vs
  induction vs with
  | nil => intro s d c h; simpa [runVisits] using h
  | cons v vs ih =>
    intro s d c h
    have hm := visitDir_cache_mono disk s v d c h
    unfold runVisits
    cases he : visitDir disk s v with
    | mk s' ok =>
      rw [he] at hm
      cases ok with
      | true => exact ih s' d c hm
      | false => simpa using hm

/-- Along a whole walk from an invariant-satisfying state, every
directory's configuration file is read at most once. -/
theorem runVisits_reads_le (disk : DiskModel) :
    ∀ (vs : List String) (s : WalkState), ReadsInv s →
      ∀ d, countStr d (runVisits disk s vs).1.reads ≤ 1 := by
  intro vs
  induction vs with
  | nil => intro s hs d; simpa [runVisits] using (hs d).1
  | cons v vs ih =>
    intro s hs d
    have hv := visitDir_inv disk s v hs
    unfold runVisits
    cases he : visitDir disk s v with
    | mk s' ok =>
      rw [he] at hv
      cases ok with
      | true => exact ih s' (hv.2 rfl) d
      | false => simpa using hv.1 d

/-- C6: within one build, each directory's configuration file is read
from disk at most once (at most one `os.Open` attempt per directory
over the whole walk), and a cached `DirectoryConfig`, once stored, is
never replaced or mutated for the remainder of the walk. -/
theorem c6_config_read_once (disk : DiskModel) (vs : List String) :
    (∀ d, countStr d (runVisits disk ⟨[], []⟩ vs).1.reads ≤ 1) ∧
    (∀ (s : WalkState) (d : String) (c : DirConfigG),
        lookupA s.cache d = some c →
        lookupA (runVisits disk s vs).1.cache d = some c) := by
  constructor
  · intro d
    refine runVisits_reads_le disk vs ⟨[], []⟩ ?_ d
    intro d'
    exact ⟨by simp [countStr], Or.inl rfl⟩
  · intro s d c h
    exact runVisits_cache_mono disk vs s d c h

/-- Witness for C6: a directory visited twice on a configless disk is
read at most once, and a pre-existing binding for `"d"` survives a walk
that revisits it. -/
theorem c6_config_read_once_witness :
    countStr "a" (runVisits diskW ⟨[], []⟩ ["a", "a"]).1.reads ≤ 1 ∧
    lookupA (runVisits diskW stateW ["a", "d"]).1.cache "d" = some DefaultDirConfig :=
  ⟨(c6_config_read_once diskW ["a", "a"]).1 "a",
   (c6_config_read_once diskW ["a", "d"]).2 stateW "d" DefaultDirConfig rfl⟩

/-- C7: when the loaded build configuration has an empty `Output`, the
build dies at the explicit check before the clearing loop: no mutation
is attempted and the output root is never even opened for clearing. -/
theorem c7_empty_output_aborts (env : BuildEnv) (cfg : GoConfig)
    (hp : env.cfgParse = some cfg) (ho : cfg.Output = "") :
    ∃ m, build env = ⟨[], none, BuildOutcome.fatal m⟩ := by
  cases hc : env.cfgOpenOk <;> cases hcc : env.cfgCloseOk <;> cases hab : env.absOk <;>
    simp [build, hp, ho, hc, hcc, hab]

/-- Witness for C7 at a concrete environment with empty output path. -/
theorem c7_empty_output_aborts_witness :
    ∃ m, build envW7 = ⟨[], none, BuildOutcome.fatal m⟩ :=
  c7_empty_output_aborts envW7 ⟨""⟩ rfl rfl

/-- C10: the result of each removal in the clearing loop is discarded:
replacing the OS's removal-success oracle changes neither the attempted
mutations nor the outcome of the build — a failed removal is never
reported and never fatal, and the loop continues over the remaining
children. -/
theorem c10_removal_errors_ignored (env : BuildEnv) (f g : Mutation → Bool) :
    (build (setRemOk env f)).mutations = (build (setRemOk env g)).mutations ∧
    (build (setRemOk env f)).outcome = (build (setRemOk env g)).outcome := by
  cases env with
  | mk ip co cp cc ab oe ro rk ocl sy =>
    simp only [setRemOk]
    cases co with
    | false => simp [build]
    | true =>
      cases cp with
      | none => simp [build]
      | some cfg =>
        cases cc with
        | false => simp [build]
        | true =>
          cases ab with
          | false => simp [build]
          | true =>
            by_cases h : cfg.Output = ""
            · simp [build, h]
            · cases oe with
              | none => simp [build, h]
              | some entries =>
                cases ro with
                | false => simp [build, h]
                | true =>
                  cases ocl with
                  | false => simp [build, h, clearOutput_ops]
                  | true =>
                    cases sy with
                    | false => simp [build, h, clearOutput_ops]
                    | true => simp [build, h, clearOutput_ops]

end Siteware
